import Mathlib

/-!
Shallow embedding of the WIO (work-in-office) calculator service
(src/server3.py) and proofs about its data model and operations.

Conventions of the embedding:
* SQLite tables keyed by a TEXT primary key become association lists
  `List (String × α)`; `INSERT OR REPLACE` removes the conflicting row and
  conses the new one; `DELETE ... WHERE date = ?` filters the key out.
* SQL `NULL` in a nullable column becomes `Option`; `COALESCE(c, 1.0)`
  becomes `Option.getD 1`.
* Python floats (REAL columns, work-hours arithmetic) are modelled
  exactly as rationals `ℚ`.
* `datetime.date` becomes a year/month/day record over `Nat`;
  `date.weekday()` (Monday = 0) is computed through the proleptic
  Gregorian ordinal, exactly as `datetime.date.toordinal`.
* The Chinese-calendar base holiday predicate (`HAS_CHINESE_CALENDAR and
  cc.is_holiday(d)`) is an explicit function parameter `cc : Date → Bool`;
  when the library is unavailable the source uses the constant-false
  predicate.
-/

namespace Wio

/-- A calendar date, as Python's `datetime.date` (year/month/day). -/
structure Date where
  year : Nat
  month : Nat
  day : Nat
deriving DecidableEq, Repr

/-- Gregorian leap-year test, as Python's `calendar.isleap`. -/
def isLeapYear (y : Nat) : Bool :=
  y % 4 == 0 && (y % 100 != 0 || y % 400 == 0)

/-- Number of days in a month, as `calendar.monthrange(year, month)[1]`. -/
def daysInMonth (y m : Nat) : Nat :=
  if m == 2 then (if isLeapYear y then 29 else 28)
  else if m == 4 || m == 6 || m == 9 || m == 11 then 30
  else 31

/-- Days in the months of year `y` strictly before month `m`. -/
def daysBeforeMonth (y m : Nat) : Nat :=
  ((List.range (m - 1)).map (fun i => daysInMonth y (i + 1))).sum

/-- Proleptic-Gregorian ordinal of a date, as `datetime.date.toordinal`
(0001-01-01 is day 1). -/
def toOrdinal (d : Date) : Nat :=
  365 * (d.year - 1) + (d.year - 1) / 4 + (d.year - 1) / 400
    - (d.year - 1) / 100 + daysBeforeMonth d.year d.month + d.day

/-- Day of week with Monday = 0 .. Sunday = 6, as Python's
`date.weekday()` (0001-01-01 was a Monday). -/
def weekday (d : Date) : Nat :=
  (toOrdinal d + 6) % 7

/-- Zero-pad a number to two digits, as the `%m` / `%d` / `{:02d}` format
directives. -/
def pad2 (n : Nat) : String :=
  if n < 10 then ("0" ++ toString n) else toString n

/-- Format `d.strftime('%Y-%m-%d')`: the date-string key used by every table. -/
def dateStr (d : Date) : String :=
  toString d.year ++ "-" ++ pad2 d.month ++ "-" ++ pad2 d.day

/-- The fixed part of the SQL pattern `f'{year}-{month:02d}-%'` used with
`LIKE` to select a month's rows. -/
def monthLike (y m : Nat) : String :=
  toString y ++ "-" ++ pad2 m ++ "-"

/-- A `daily_status` row minus its key: `status TEXT NOT NULL`,
`work_hours REAL DEFAULT 1.0` (nullable in rows that predate the column,
hence `Option`). -/
structure StatusRec where
  status : String
  work_hours : Option ℚ
deriving DecidableEq, Repr

/-- A `custom_holidays` row minus its key: `description TEXT` (nullable),
`is_workday BOOLEAN DEFAULT 0`. -/
structure HolidayRec where
  description : Option String
  is_workday : Bool
deriving DecidableEq, Repr

/-- The whole SQLite database: three tables, each keyed by a TEXT
primary key. -/
structure Store where
  daily_status : List (String × StatusRec)
  custom_holidays : List (String × HolidayRec)
  settings : List (String × String)
deriving DecidableEq, Repr

def emptyStore : Store := ⟨[], [], []⟩

/-- Query `SELECT ... WHERE key = ?`: first row with the given key. -/
def lookupKey {α : Type} (k : String) (l : List (String × α)) : Option α :=
  (l.find? (fun p => p.1 == k)).map Prod.snd

/-- Statement `INSERT OR REPLACE` on a primary-key column: the conflicting row is
deleted and the fresh row inserted. -/
def insertRow {α : Type} (k : String) (v : α) (l : List (String × α)) :
    List (String × α) :=
  (k, v) :: l.filter (fun p => p.1 != k)

/-- Statement `DELETE FROM t WHERE key = ?`. -/
def deleteRow {α : Type} (k : String) (l : List (String × α)) :
    List (String × α) :=
  l.filter (fun p => p.1 != k)

/-- The primary-key property: no two rows share a key. -/
def keysNodup {α : Type} (l : List (String × α)) : Prop :=
  (l.map Prod.fst).Nodup

/-- Function `is_workday(target_date)` from src/server3.py: weekends first, then
the base (Chinese-calendar) holidays, then the `custom_holidays` row for
the date, else a workday. -/
def is_workday (cc : Date → Bool) (s : Store) (d : Date) : Bool :=
  if 5 ≤ weekday d then false
  else if cc d then false
  else
    match lookupKey (dateStr d) s.custom_holidays with
    | some h => h.is_workday
    | none => true

/-- SQL `col LIKE 'pat%'` for a literal pattern body `pat`: prefix match. -/
def likeMatches (pat key : String) : Bool :=
  pat.toList.isPrefixOf key.toList

/-- The rows of `daily_status` selected by
`WHERE date LIKE '{year}-{month:02d}-%'` — the month's status dict. -/
def monthStatus (y m : Nat) (s : Store) : List (String × StatusRec) :=
  s.daily_status.filter (fun p => likeMatches (monthLike y m) p.1)

/-- Lookup `status_dict.get(date_str, {'status': 'WFH', 'work_hours': 1.0})`
followed by the `COALESCE(work_hours, 1.0)` of the query: the (status,
hours) pair the statistics loop uses for one day. -/
def dayLookup (y m : Nat) (s : Store) (ds : String) : String × ℚ :=
  match lookupKey ds (monthStatus y m s) with
  | some r => (r.status, r.work_hours.getD 1)
  | none => ("WFH", 1)

/-- The days `1 .. days_in_month` of a month, as dates. -/
def monthDays (y m : Nat) : List Date :=
  (List.range (daysInMonth y m)).map (fun i => ⟨y, m, i + 1⟩)

/-- Python's `round(x, 1)` on our exact rationals: round to one decimal
place (ties go up; float bankers-rounding tie behaviour is below the
resolution of this model). -/
def round1 (q : ℚ) : ℚ :=
  ((round (10 * q) : ℤ) : ℚ) / 10

/-- The result record of `calculate_wio_stats`. -/
structure WioStats where
  total_workdays : ℚ
  wio_days : ℚ
  wio_percentage : ℚ
  remaining_workdays : ℚ
deriving DecidableEq, Repr

/-- One iteration of the `for day in range(1, days_in_month + 1)` loop of
`calculate_wio_stats`, accumulating (total_workdays, wio_days). -/
def statsStep (cc : Date → Bool) (s : Store) (y m : Nat)
    (acc : ℚ × ℚ) (d : Date) : ℚ × ℚ :=
  if is_workday cc s d then
    (acc.1 + (dayLookup y m s (dateStr d)).2,
     if (dayLookup y m s (dateStr d)).1 == "WIO" then
       acc.2 + (dayLookup y m s (dateStr d)).2
     else acc.2)
  else acc

/-- Function `calculate_wio_stats(year, month)` from src/server3.py. -/
def calculate_wio_stats (cc : Date → Bool) (s : Store) (y m : Nat) :
    WioStats :=
  let dict := monthStatus y m s
  let acc := (monthDays y m).foldl (statsStep cc s y m) (0, 0)
  let total := acc.1
  let wio := acc.2
  let pct := if 0 < total then wio / total * 100 else 0
  { total_workdays := total
    wio_days := wio
    wio_percentage := round1 pct
    remaining_workdays := if dict.isEmpty then total else total - wio }

/-- Route `update_day_status` (POST /api/day_status): `data.get('work_hours',
1.0)` defaults a missing field to a full day, then INSERT OR REPLACE. -/
def update_day_status (d status : String) (wh : Option ℚ) (s : Store) :
    Store :=
  { s with daily_status :=
      insertRow d ⟨status, some (wh.getD 1)⟩ s.daily_status }

/-- Route `delete_day_status` (DELETE /api/day_status). -/
def delete_day_status (d : String) (s : Store) : Store :=
  { s with daily_status := deleteRow d s.daily_status }

/-- Route `add_holiday` (POST /api/holidays): `data.get('is_workday', False)`. -/
def add_holiday (d : String) (desc : Option String) (wd : Option Bool)
    (s : Store) : Store :=
  { s with custom_holidays :=
      insertRow d ⟨desc, wd.getD false⟩ s.custom_holidays }

/-- Route `delete_holiday` (DELETE /api/holidays). -/
def delete_holiday (d : String) (s : Store) : Store :=
  { s with custom_holidays := deleteRow d s.custom_holidays }

/-- Route `update_settings` (POST /api/settings): INSERT OR REPLACE each
key/value pair of the request body in order. -/
def update_settings (kvs : List (String × String)) (s : Store) : Store :=
  { s with settings :=
      kvs.foldl (fun l kv => insertRow kv.1 kv.2 l) s.settings }

/-- Numeric value of a list of decimal digit characters. -/
def digitsVal (cs : List Char) : Nat :=
  cs.foldl (fun a c => 10 * a + (c.toNat - 48)) 0

/-- Python's `float(v)` on plain decimal numerals: optional sign, integer
digits, optional fraction digits. Exotic forms (exponents, `inf`, `nan`,
whitespace) are outside the model and map to `none`, as does any
unparseable string, for which `float` raises. -/
def parseFloat (v : String) : Option ℚ :=
  let cs := v.toList
  let sb : ℚ × List Char :=
    match cs with
    | '-' :: rest => (-1, rest)
    | '+' :: rest => (1, rest)
    | _ => (1, cs)
  let body := sb.2
  let ip := body.takeWhile (fun c => c != '.')
  let rest := body.dropWhile (fun c => c != '.')
  let fp := rest.tail
  if body.isEmpty then none
  else if !ip.all Char.isDigit then none
  else if rest.isEmpty then some (sb.1 * digitsVal ip)
  else if !fp.all Char.isDigit then none
  else if ip.isEmpty && fp.isEmpty then none
  else some (sb.1 * ((digitsVal ip : ℚ) + (digitsVal fp : ℚ) / 10 ^ fp.length))

/-- The target lookup of `get_month_data`:
`SELECT value FROM settings WHERE key = 'wio_target'`, then
`float(row['value'])` when a row exists, else the literal 40.0; `none`
models `float` raising on an unparseable value. -/
def getWioTarget (s : Store) : Option ℚ :=
  match lookupKey ("wio_target") s.settings with
  | some v => parseFloat v
  | none => some 40

/-- The settings seeding of `init_database`: INSERT the row
('wio_target', '40') when no row with that key exists. Table creation
itself has no content in this model. -/
def init_database (s : Store) : Store :=
  match lookupKey ("wio_target") s.settings with
  | some _ => s
  | none => { s with settings := s.settings ++ [("wio_target", "40")] }

/-- The `stats` object in the response of `get_month_data`: the
`calculate_wio_stats` figures plus target, target days and days needed. -/
structure MonthStats where
  total_workdays : ℚ
  wio_days : ℚ
  wio_percentage : ℚ
  remaining_workdays : ℚ
  wio_target : ℚ
  target_wio_days : ℤ
  days_needed : ℚ
deriving DecidableEq, Repr

/-- The statistics part of `get_month_data` (GET /api/month_data):
`target_wio_days = math.ceil(wio_target / 100 * stats['total_workdays'])`
and `days_needed = max(0, target_wio_days - stats['wio_days'])`. -/
def month_data_stats (cc : Date → Bool) (s : Store) (y m : Nat) :
    Option MonthStats :=
  match getWioTarget s with
  | none => none
  | some t =>
    let st := calculate_wio_stats cc s y m
    let tgt : ℤ := ⌈t / 100 * st.total_workdays⌉
    some { total_workdays := st.total_workdays
           wio_days := st.wio_days
           wio_percentage := st.wio_percentage
           remaining_workdays := st.remaining_workdays
           wio_target := t
           target_wio_days := tgt
           days_needed := max 0 ((tgt : ℚ) - st.wio_days) }

/-- A `daily_status` row as exported to JSON. Import reads
`record['date']`, `record['status']` and `record.get('work_hours', 1.0)`:
in `work_hours` the outer `Option` marks the key's presence in the dict,
the inner one a JSON null. -/
structure StatusRow where
  date : String
  status : String
  work_hours : Option (Option ℚ)
deriving DecidableEq, Repr

/-- A `custom_holidays` row as exported to JSON. Import reads
`holiday['date']`, `holiday['description']` (present but possibly null)
and `holiday.get('is_workday', 0)`. -/
structure HolidayRow where
  date : String
  description : Option String
  is_workday : Option Bool
deriving DecidableEq, Repr

/-- The JSON document produced by export and consumed by import. The
`version` field is optional on the import side, where its absence is
rejected. -/
structure ExportBlob where
  daily_status : List StatusRow
  custom_holidays : List HolidayRow
  settings : List (String × String)
  export_date : String
  version : Option String
deriving DecidableEq, Repr

/-- Route `export_data` (GET /api/export): dump the three tables, the row
tables ordered by date (`ORDER BY date`), the settings as a key/value
dict, plus a timestamp and the literal version tag '1.0'. -/
def export_data (s : Store) (now : String) : ExportBlob :=
  { daily_status :=
      (List.insertionSort (fun p q => p.1 ≤ q.1) s.daily_status).map
        (fun p => ⟨p.1, p.2.status, some p.2.work_hours⟩)
    custom_holidays :=
      (List.insertionSort (fun p q => p.1 ≤ q.1) s.custom_holidays).map
        (fun p => ⟨p.1, p.2.description, some p.2.is_workday⟩)
    settings := s.settings
    export_date := now
    version := some ("1.0") }

/-- Route `import_data` (POST /api/import): reject with HTTP 400 (here `none`)
when the `version` key is absent, else INSERT OR REPLACE every given row
in order, defaulting absent `work_hours` to 1.0 and absent `is_workday`
to false. -/
def import_data (b : ExportBlob) (s : Store) : Option Store :=
  match b.version with
  | none => none
  | some _ => some
    { daily_status := b.daily_status.foldl
        (fun l r => insertRow r.date
          ⟨r.status, (r.work_hours).getD (some 1)⟩ l)
        s.daily_status
      custom_holidays := b.custom_holidays.foldl
        (fun l r => insertRow r.date
          ⟨r.description, (r.is_workday).getD false⟩ l)
        s.custom_holidays
      settings := b.settings.foldl
        (fun l kv => insertRow kv.1 kv.2 l) s.settings }

/-- One request to a data route of the service. -/
inductive Request where
  | indexPage
  | monthData (y m : Nat)
  | dayStatusPost (d status : String) (wh : Option ℚ)
  | dayStatusDelete (d : String)
  | settingsGet
  | settingsPost (kvs : List (String × String))
  | holidaysGet (y : Nat)
  | holidaysPost (d : String) (desc : Option String) (wd : Option Bool)
  | holidaysDelete (d : String)
  | exportGet (now : String)
  | importPost (b : ExportBlob)

/-- The observable outcome of a request, with response bodies
abstracted: a redirect to a named route, a completed 2xx response, or a
4xx client error. -/
inductive Response where
  | redirect (target : String)
  | completed
  | clientError
deriving DecidableEq, Repr

/-- The `login_required` decorator: when the session lacks `logged_in`,
redirect to the login route without running the wrapped view. -/
def login_required (loggedIn : Bool) (f : Store → Response × Store)
    (s : Store) : Response × Store :=
  if loggedIn then f s else (Response.redirect ("login"), s)

/-- Dispatch of the data routes of src/server3.py; every route is
wrapped in `login_required` exactly as in the source. -/
def handle (loggedIn : Bool) (req : Request)
    (s : Store) : Response × Store :=
  match req with
  | .indexPage => login_required loggedIn (fun s => (.completed, s)) s
  | .monthData _ _ => login_required loggedIn (fun s => (.completed, s)) s
  | .dayStatusPost d st wh => login_required loggedIn
      (fun s => (.completed, update_day_status d st wh s)) s
  | .dayStatusDelete d => login_required loggedIn
      (fun s => (.completed, delete_day_status d s)) s
  | .settingsGet => login_required loggedIn (fun s => (.completed, s)) s
  | .settingsPost kvs => login_required loggedIn
      (fun s => (.completed, update_settings kvs s)) s
  | .holidaysGet _ => login_required loggedIn (fun s => (.completed, s)) s
  | .holidaysPost d desc wd => login_required loggedIn
      (fun s => (.completed, add_holiday d desc wd s)) s
  | .holidaysDelete d => login_required loggedIn
      (fun s => (.completed, delete_holiday d s)) s
  | .exportGet _ => login_required loggedIn (fun s => (.completed, s)) s
  | .importPost b => login_required loggedIn
      (fun s => match import_data b s with
        | some t => (.completed, t)
        | none => (.clientError, s)) s

/-- The month's workdays, as classified by `is_workday`. -/
def workdayDates (cc : Date → Bool) (s : Store) (y m : Nat) : List Date :=
  (monthDays y m).filter (fun d => is_workday cc s d)

/-- The work-hours one day contributes: the recorded hours (`COALESCE`d
to 1.0) or the 1.0 default of a day with no record. -/
def dayHours (y m : Nat) (s : Store) (d : Date) : ℚ :=
  (dayLookup y m s (dateStr d)).2

/-- Sum of work-hours over all workdays of the month. -/
def sumWorkHours (cc : Date → Bool) (s : Store) (y m : Nat) : ℚ :=
  ((workdayDates cc s y m).map (dayHours y m s)).sum

/-- Sum of work-hours over the month's workdays whose recorded status is
'WIO'. -/
def sumWioHours (cc : Date → Bool) (s : Store) (y m : Nat) : ℚ :=
  (((workdayDates cc s y m).filter
      (fun d => (dayLookup y m s (dateStr d)).1 == "WIO")).map
    (dayHours y m s)).sum

/-- The remaining-workdays figure as the plain subtraction
`total_workdays - wio_days`, with no case split on whether the month has
status records. -/
def remainingPlain (cc : Date → Bool) (s : Store) (y m : Nat) : ℚ :=
  (calculate_wio_stats cc s y m).total_workdays -
    (calculate_wio_stats cc s y m).wio_days

/-- Every stored daily-status row carries one of the two status values
of the data model. -/
def StatusOk (s : Store) : Prop :=
  ∀ p ∈ s.daily_status, p.2.status = "WIO" ∨ p.2.status = "WFH"

/-- The statuses a request itself carries are among the two status
values of the data model. -/
def RequestStatusOk : Request → Prop
  | .dayStatusPost _ st _ => st = "WIO" ∨ st = "WFH"
  | .importPost b => ∀ r ∈ b.daily_status, r.status = "WIO" ∨ r.status = "WFH"
  | _ => True

/-- The per-date primary keys of the status and holiday tables are
duplicate-free. -/
def StoreKeysOk (s : Store) : Prop :=
  keysNodup s.daily_status ∧ keysNodup s.custom_holidays

/-- The base-calendar predicate of a deployment without the
chinesecalendar library: no base holidays. -/
def ccNone : Date → Bool := fun _ => false

/-- A store whose only content is a custom-holiday row for Saturday
2025-01-04 with the is_workday flag set. -/
def satHolidayStore : Store :=
  ⟨[], [("2025-01-04", ⟨some ("makeup day"), true⟩)], []⟩

/-- A store whose only content is a custom-holiday row for Monday
2025-01-06 with the is_workday flag clear. -/
def wkdHolidayStore : Store :=
  ⟨[], [("2025-01-06", ⟨some ("bridge day"), false⟩)], []⟩

/-- A store holding one pre-migration status row whose work_hours column
is NULL. -/
def nullHoursStore : Store :=
  ⟨[("2025-01-06", ⟨"WIO", none⟩)], [], []⟩

/-- A store whose settings hold the key the spec names, not the key the
code reads. -/
def pctKeyStore : Store :=
  ⟨[], [], [("target_percentage", "80")]⟩

/-- A store with a stored target of 55. -/
def targetStore : Store :=
  ⟨[], [], [("wio_target", "55")]⟩

/-- A small store with one row in every table, used to instantiate the
invariant and round-trip theorems. -/
def sampleStore : Store :=
  ⟨[("2025-01-06", ⟨"WIO", some 1⟩), ("2025-01-07", ⟨"WFH", none⟩)],
   [("2025-01-01", ⟨some ("new year"), false⟩)],
   [("wio_target", "40")]⟩

/-! ### Association-list lemmas -/

theorem lookupKey_cons {α : Type} (k k' : String) (v : α)
    (l : List (String × α)) :
    lookupKey k ((k', v) :: l) = if k' = k then some v else lookupKey k l := by
  rcases eq_or_ne k' k with h | h
  · subst h
    simp [lookupKey, List.find?_cons_of_pos]
  · rw [if_neg h]
    unfold lookupKey
    rw [List.find?_cons_of_neg]
    simpa using h

theorem find?_filter_ne {α : Type} (k k' : String) (h : k' ≠ k)
    (l : List (String × α)) :
    (l.filter (fun p => p.1 != k)).find? (fun p => p.1 == k') =
      l.find? (fun p => p.1 == k') := by
  induction l with
  | nil => rfl
  | cons x l ih =>
    rcases eq_or_ne x.1 k' with hx | hx
    · have h1 : (x.1 != k) = true := by simp [hx, h]
      have h2 : (x.1 == k') = true := by simp [hx]
      simp [List.filter_cons, List.find?_cons, h1, h2]
    · have h2 : (x.1 == k') = false := by simp [hx]
      rcases eq_or_ne x.1 k with hk | hk
      · have h1 : (x.1 != k) = false := by simp [hk]
        simp [List.filter_cons, List.find?_cons, h1, h2, ih]
      · have h1 : (x.1 != k) = true := by simp [hk]
        simp [List.filter_cons, List.find?_cons, h1, h2, ih]

theorem lookupKey_insertRow_self {α : Type} (k : String) (v : α)
    (l : List (String × α)) :
    lookupKey k (insertRow k v l) = some v := by
  simp [insertRow, lookupKey, List.find?_cons]

theorem lookupKey_insertRow_ne {α : Type} (k k' : String) (v : α)
    (l : List (String × α)) (h : k' ≠ k) :
    lookupKey k' (insertRow k v l) = lookupKey k' l := by
  have h2 : (k == k') = false := by simp [Ne.symm h]
  unfold insertRow lookupKey
  simp only [List.find?_cons, h2]
  rw [find?_filter_ne k k' h]

theorem lookupKey_eq_none_iff {α : Type} (k : String)
    (l : List (String × α)) :
    lookupKey k l = none ↔ k ∉ l.map Prod.fst := by
  unfold lookupKey
  rw [Option.map_eq_none', List.find?_eq_none]
  constructor
  · intro h hk
    rcases List.mem_map.1 hk with ⟨p, hp, hpk⟩
    exact h p hp (by simp [hpk])
  · intro h p hp hpk
    exact h (List.mem_map.2 ⟨p, hp, by simpa using hpk⟩)

theorem lookupKey_eq_some_iff {α : Type} {l : List (String × α)}
    (hn : keysNodup l) (k : String) (v : α) :
    lookupKey k l = some v ↔ (k, v) ∈ l := by
  constructor
  · intro h
    rcases Option.map_eq_some'.1 h with ⟨p, hp, hpv⟩
    have hmem : p ∈ l := List.mem_of_find?_eq_some hp
    have hpk : p.1 = k := by simpa using List.find?_some hp
    have : (k, v) = p := by
      rw [← hpk, ← hpv]
    rw [this]
    exact hmem
  · intro h
    have hsome : (l.find? (fun p => p.1 == k)).isSome := by
      rw [List.find?_isSome]
      exact ⟨(k, v), h, by simp⟩
    rcases Option.isSome_iff_exists.1 hsome with ⟨p, hp⟩
    have hmem : p ∈ l := List.mem_of_find?_eq_some hp
    have hpk : p.1 = k := by simpa using List.find?_some hp
    have hup : p = (k, v) :=
      List.inj_on_of_nodup_map hn hmem h (by simpa using hpk)
    unfold lookupKey
    rw [hp, hup]
    rfl

theorem keysNodup_cons_head {α : Type} {x : String × α}
    {l : List (String × α)} (h : keysNodup (x :: l)) :
    x.1 ∉ l.map Prod.fst :=
  (List.nodup_cons.1 (by simpa [keysNodup] using h)).1

theorem keysNodup_cons_tail {α : Type} {x : String × α}
    {l : List (String × α)} (h : keysNodup (x :: l)) :
    keysNodup l :=
  (List.nodup_cons.1 (by simpa [keysNodup] using h)).2

theorem keysNodup_filter {α : Type} (f : String × α → Bool)
    {l : List (String × α)} (h : keysNodup l) :
    keysNodup (l.filter f) :=
  List.Nodup.sublist ((List.filter_sublist l).map Prod.fst) h

theorem keysNodup_insertRow {α : Type} (k : String) (v : α)
    {l : List (String × α)} (h : keysNodup l) :
    keysNodup (insertRow k v l) := by
  unfold keysNodup insertRow
  rw [List.map_cons, List.nodup_cons]
  refine ⟨?_, keysNodup_filter _ h⟩
  intro hk
  rcases List.mem_map.1 hk with ⟨p, hp, hpk⟩
  have := (List.mem_filter.1 hp).2
  rw [hpk] at this
  simp at this

theorem keysNodup_deleteRow {α : Type} (k : String)
    {l : List (String × α)} (h : keysNodup l) :
    keysNodup (deleteRow k l) :=
  keysNodup_filter _ h

theorem lookupKey_of_perm {α : Type} {l l' : List (String × α)}
    (hp : l.Perm l') (hn : keysNodup l) (k : String) :
    lookupKey k l = lookupKey k l' := by
  have hn' : keysNodup l' := ((hp.map Prod.fst).nodup_iff).1 hn
  cases h : lookupKey k l with
  | some v =>
    exact ((lookupKey_eq_some_iff hn' k v).2
      (hp.subset ((lookupKey_eq_some_iff hn k v).1 h))).symm
  | none =>
    refine ((lookupKey_eq_none_iff k l').2 ?_).symm
    intro hk
    rcases List.mem_map.1 hk with ⟨p, hpmem, hpk⟩
    have : (k, p.2) ∈ l := by
      refine hp.symm.subset ?_
      rw [← hpk]
      exact hpmem
    rw [(lookupKey_eq_some_iff hn k p.2).2 this] at h
    cases h

theorem lookupKey_foldl_insertRow_of_not_mem {α : Type}
    (L : List (String × α)) (k : String) (h : k ∉ L.map Prod.fst) :
    ∀ acc : List (String × α),
      lookupKey k (L.foldl (fun l p => insertRow p.1 p.2 l) acc) =
        lookupKey k acc := by
  induction L with
  | nil => intro acc; rfl
  | cons x L ih =>
    intro acc
    rw [List.map_cons] at h
    rw [List.foldl_cons, ih (fun hk => h (List.mem_cons_of_mem _ hk)),
      lookupKey_insertRow_ne x.1 k x.2 acc
        (fun e => h (e ▸ List.mem_cons_self _ _))]

theorem lookupKey_foldl_insertRow_of_some {α : Type}
    (L : List (String × α)) (k : String) (v : α) (hn : keysNodup L)
    (h : lookupKey k L = some v) :
    ∀ acc : List (String × α),
      lookupKey k (L.foldl (fun l p => insertRow p.1 p.2 l) acc) =
        some v := by
  induction L with
  | nil => cases h
  | cons x L ih =>
    intro acc
    rw [List.foldl_cons]
    rcases eq_or_ne x.1 k with hx | hx
    · have hnotm : k ∉ L.map Prod.fst := hx ▸ keysNodup_cons_head hn
      rw [lookupKey_foldl_insertRow_of_not_mem L k hnotm]
      have hv : v = x.2 := by
        have := lookupKey_cons k x.1 x.2 L
        rw [(by exact Prod.mk.eta.symm : x = (x.1, x.2)), this, if_pos hx]
          at h
        exact (Option.some.injEq _ _ ▸ h).symm
      rw [hv, ← hx, lookupKey_insertRow_self]
    · have hL : lookupKey k L = some v := by
        have := lookupKey_cons k x.1 x.2 L
        rw [(by exact Prod.mk.eta.symm : x = (x.1, x.2)), this, if_neg hx]
          at h
        exact h
      exact ih (keysNodup_cons_tail hn) hL _

theorem keysNodup_foldl_insertRow {α β : Type} (key : β → String)
    (val : β → α) (L : List β) :
    ∀ acc : List (String × α), keysNodup acc →
      keysNodup (L.foldl (fun l r => insertRow (key r) (val r) l) acc) := by
  induction L with
  | nil => intro acc h; exact h
  | cons x L ih =>
    intro acc h
    rw [List.foldl_cons]
    exact ih _ (keysNodup_insertRow (key x) (val x) h)

theorem mem_insertRow {α : Type} {k : String} {v : α}
    {l : List (String × α)} {p : String × α} (h : p ∈ insertRow k v l) :
    p = (k, v) ∨ p ∈ l := by
  rcases List.mem_cons.1 h with h | h
  · exact Or.inl h
  · exact Or.inr (List.mem_of_mem_filter h)

theorem mem_foldl_insertRow {α β : Type} (key : β → String)
    (val : β → α) (L : List β) :
    ∀ (acc : List (String × α)) (p : String × α),
      p ∈ L.foldl (fun l r => insertRow (key r) (val r) l) acc →
        p ∈ acc ∨ ∃ r ∈ L, p = (key r, val r) := by
  induction L with
  | nil => intro acc p hp; exact Or.inl hp
  | cons x L ih =>
    intro acc p hp
    rw [List.foldl_cons] at hp
    rcases ih _ p hp with h | ⟨r, hr, he⟩
    · rcases mem_insertRow h with he | h'
      · exact Or.inr ⟨x, List.mem_cons_self _ _, he⟩
      · exact Or.inl h'
    · exact Or.inr ⟨r, List.mem_cons_of_mem _ hr, he⟩

/-! ### The statistics fold -/

theorem foldl_statsStep (cc : Date → Bool) (s : Store) (y m : Nat) :
    ∀ (l : List Date) (a : ℚ × ℚ),
      l.foldl (statsStep cc s y m) a =
        (a.1 + ((l.filter (fun d => is_workday cc s d)).map
            (dayHours y m s)).sum,
         a.2 + (((l.filter (fun d => is_workday cc s d)).filter
              (fun d => (dayLookup y m s (dateStr d)).1 == "WIO")).map
            (dayHours y m s)).sum) := by
  intro l
  induction l with
  | nil => intro a; simp
  | cons d l ih =>
    intro a
    rw [List.foldl_cons, ih]
    unfold statsStep
    cases hwd : is_workday cc s d with
    | false =>
      simp [List.filter_cons, hwd]
    | true =>
      cases hs : (dayLookup y m s (dateStr d)).1 == "WIO" with
      | false =>
        simp [List.filter_cons, hwd, hs, dayHours]
        ring
      | true =>
        simp [List.filter_cons, hwd, hs, dayHours, Prod.ext_iff]
        constructor <;> ring

theorem calculate_wio_stats_eq (cc : Date → Bool) (s : Store) (y m : Nat) :
    calculate_wio_stats cc s y m =
      { total_workdays := sumWorkHours cc s y m
        wio_days := sumWioHours cc s y m
        wio_percentage := round1 (if 0 < sumWorkHours cc s y m then
            sumWioHours cc s y m / sumWorkHours cc s y m * 100 else 0)
        remaining_workdays := if (monthStatus y m s).isEmpty then
            sumWorkHours cc s y m
          else sumWorkHours cc s y m - sumWioHours cc s y m } := by
  unfold calculate_wio_stats sumWorkHours sumWioHours workdayDates
  rw [foldl_statsStep]
  simp

theorem monthStatus_emptyStore (y m : Nat) :
    monthStatus y m emptyStore = [] := rfl

theorem dayLookup_emptyStore (y m : Nat) (ds : String) :
    dayLookup y m emptyStore ds = ("WFH", 1) := rfl

theorem sumWorkHours_emptyStore (cc : Date → Bool) (y m : Nat) :
    sumWorkHours cc emptyStore y m =
      ((monthDays y m).countP (fun d => is_workday cc emptyStore d) : ℚ) := by
  unfold sumWorkHours
  have h1 : (workdayDates cc emptyStore y m).map (dayHours y m emptyStore) =
      (workdayDates cc emptyStore y m).map (fun _ => (1 : ℚ)) := rfl
  rw [h1, List.map_const', List.sum_replicate, nsmul_eq_mul, mul_one,
    workdayDates, ← List.countP_eq_length_filter]

theorem sumWioHours_emptyStore (cc : Date → Bool) (y m : Nat) :
    sumWioHours cc emptyStore y m = 0 := by
  unfold sumWioHours
  have h1 : (workdayDates cc emptyStore y m).filter
      (fun d => (dayLookup y m emptyStore (dateStr d)).1 == "WIO") =
      (workdayDates cc emptyStore y m).filter (fun _ => false) := rfl
  rw [h1]
  simp

theorem round1_zero : round1 0 = 0 := by
  simp [round1]

theorem calculate_wio_stats_emptyStore (cc : Date → Bool) (y m : Nat) :
    calculate_wio_stats cc emptyStore y m =
      { total_workdays := ((monthDays y m).countP
            (fun d => is_workday cc emptyStore d) : ℚ)
        wio_days := 0
        wio_percentage := 0
        remaining_workdays := ((monthDays y m).countP
            (fun d => is_workday cc emptyStore d) : ℚ) } := by
  rw [calculate_wio_stats_eq, sumWorkHours_emptyStore, sumWioHours_emptyStore,
    monthStatus_emptyStore]
  simp [round1_zero]

theorem sumWioHours_of_monthStatus_nil (cc : Date → Bool) (s : Store)
    (y m : Nat) (h : monthStatus y m s = []) :
    sumWioHours cc s y m = 0 := by
  unfold sumWioHours
  have h1 : ∀ d : Date, ((dayLookup y m s (dateStr d)).1 == "WIO") = false := by
    intro d
    unfold dayLookup
    rw [h]
    rfl
  rw [List.filter_congr (fun d _ => h1 d)]
  simp

/-! ### C1: the monthly statistics figures -/

/-- C1: for every year and month, `calculate_wio_stats` returns
`wio_days` equal to the sum of work-hours over the month's workdays whose
recorded status is 'WIO', `total_workdays` equal to the sum of work-hours
over all workdays of the month (a workday with no record contributing 1.0
and counting as not in office), and `wio_percentage` equal to
`wio_days / total_workdays * 100` rounded to one decimal place when
`total_workdays > 0`, and `0` when `total_workdays = 0` (the division is
guarded and never evaluated at a zero denominator). -/
theorem calculate_wio_stats_correct (cc : Date → Bool) (s : Store)
    (y m : Nat) :
    (calculate_wio_stats cc s y m).wio_days = sumWioHours cc s y m ∧
    (calculate_wio_stats cc s y m).total_workdays = sumWorkHours cc s y m ∧
    (0 < (calculate_wio_stats cc s y m).total_workdays →
      (calculate_wio_stats cc s y m).wio_percentage =
        round1 ((calculate_wio_stats cc s y m).wio_days /
          (calculate_wio_stats cc s y m).total_workdays * 100)) ∧
    ((calculate_wio_stats cc s y m).total_workdays = 0 →
      (calculate_wio_stats cc s y m).wio_percentage = 0) := by
  rw [calculate_wio_stats_eq]
  dsimp only
  refine ⟨rfl, rfl, ?_, ?_⟩
  · intro h
    rw [if_pos h]
  · intro h
    rw [h]
    simp [round1_zero]

/-- Witness for C1: January 2025 on the empty store has 23 workdays, so
the percentage is the rounded ratio; with every day a base holiday the
total is 0 and the percentage is 0. -/
theorem calculate_wio_stats_correct_witness :
    0 < (calculate_wio_stats ccNone emptyStore 2025 1).total_workdays ∧
    (calculate_wio_stats ccNone emptyStore 2025 1).wio_percentage =
      round1 ((calculate_wio_stats ccNone emptyStore 2025 1).wio_days /
        (calculate_wio_stats ccNone emptyStore 2025 1).total_workdays *
          100) ∧
    (calculate_wio_stats (fun _ => true) emptyStore 2025 1).wio_percentage
      = 0 := by
  have hc : (monthDays 2025 1).countP
      (fun d => is_workday ccNone emptyStore d) = 23 := by decide
  have hpos : 0 < (calculate_wio_stats ccNone emptyStore 2025 1).total_workdays := by
    rw [calculate_wio_stats_emptyStore]
    dsimp only
    rw [hc]
    norm_num
  have hz : (calculate_wio_stats (fun _ => true) emptyStore 2025 1).total_workdays = 0 := by
    rw [calculate_wio_stats_emptyStore]
    dsimp only
    rw [show (monthDays 2025 1).countP
      (fun d => is_workday (fun _ => true) emptyStore d) = 0 from by decide]
    norm_num
  exact ⟨hpos,
    (calculate_wio_stats_correct ccNone emptyStore 2025 1).2.2.1 hpos,
    (calculate_wio_stats_correct (fun _ => true) emptyStore 2025 1).2.2.2 hz⟩

/-! ### C10: the remaining-workdays branch is redundant -/

/-- C10: the `remaining_workdays` figure equals
`total_workdays - wio_days` unconditionally; the source's branch on
whether the month has any status records is redundant, because
`wio_days` is 0 whenever none exist. -/
theorem remaining_workdays_unconditional (cc : Date → Bool) (s : Store)
    (y m : Nat) :
    (calculate_wio_stats cc s y m).remaining_workdays =
      remainingPlain cc s y m := by
  unfold remainingPlain
  rw [calculate_wio_stats_eq]
  dsimp only
  cases hE : (monthStatus y m s).isEmpty with
  | false => simp [hE]
  | true =>
    simp only [hE, if_pos]
    rw [sumWioHours_of_monthStatus_nil cc s y m (List.isEmpty_iff.1 hE)]
    rw [sub_zero]

/-! ### C3: days needed to reach the target -/

/-- C3: the month-data endpoint computes
`target_wio_days = ceil(wio_target / 100 * total_workdays)` and
`days_needed = max 0 (target_wio_days - wio_days)`; `days_needed` is
never negative and is 0 whenever `wio_days` meets or exceeds
`target_wio_days`. -/
theorem month_data_days_needed (cc : Date → Bool) (s : Store) (y m : Nat)
    (ms : MonthStats) (h : month_data_stats cc s y m = some ms) :
    ms.target_wio_days = ⌈ms.wio_target / 100 * ms.total_workdays⌉ ∧
    ms.days_needed = max 0 ((ms.target_wio_days : ℚ) - ms.wio_days) ∧
    0 ≤ ms.days_needed ∧
    ((ms.target_wio_days : ℚ) ≤ ms.wio_days → ms.days_needed = 0) := by
  unfold month_data_stats at h
  cases hgt : getWioTarget s with
  | none =>
    rw [hgt] at h
    cases h
  | some t =>
    rw [hgt] at h
    injection h with h
    subst h
    dsimp only
    refine ⟨rfl, rfl, le_max_left _ _, ?_⟩
    intro hle
    exact max_eq_left (sub_nonpos.2 hle)

/-- Witness for C3: January 2025 on the empty store, default target 40:
23 workdays, target ceil(9.2) = 10 days, 10 days still needed. -/
theorem month_data_days_needed_witness :
    month_data_stats ccNone emptyStore 2025 1 =
        some ⟨23, 0, 0, 23, 40, 10, 10⟩ ∧
    (10 : ℚ) = max 0 (((10 : ℤ) : ℚ) - 0) ∧
    (0 : ℚ) ≤ 10 := by
  have hc : (monthDays 2025 1).countP
      (fun d => is_workday ccNone emptyStore d) = 23 := by decide
  have hceil : ⌈(40 : ℚ) / 100 * ((23 : ℕ) : ℚ)⌉ = 10 := by
    rw [Int.ceil_eq_iff]
    constructor <;> norm_num
  have h : month_data_stats ccNone emptyStore 2025 1 =
      some ⟨23, 0, 0, 23, 40, 10, 10⟩ := by
    unfold month_data_stats
    rw [show getWioTarget emptyStore = some 40 from rfl,
      calculate_wio_stats_emptyStore]
    dsimp only
    rw [hc, hceil]
    norm_num
  have hm := month_data_days_needed ccNone emptyStore 2025 1
    ⟨23, 0, 0, 23, 40, 10, 10⟩ h
  exact ⟨h, hm.2.1, hm.2.2.1⟩

/-! ### C2: the custom-holiday override -/

/-- C2 counterexample: Saturday 2025-01-04 carries a custom-holiday row
whose is_workday flag is set, yet the classifier returns false — the
row's flag is not returned, because the weekend test precedes the custom
lookup. -/
theorem is_workday_custom_override_counterexample :
    lookupKey ("2025-01-04") satHolidayStore.custom_holidays =
        some ⟨some ("makeup day"), true⟩ ∧
    is_workday ccNone satHolidayStore ⟨2025, 1, 4⟩ = false := by
  constructor <;> rfl

/-- C2 (amended): for a date that is neither a weekend day nor a
base-calendar holiday, a custom-holiday row determines the workday
classification through its is_workday flag; weekend days and
base-calendar holidays are classified as non-workdays before the custom
table is consulted. -/
theorem is_workday_custom_override (cc : Date → Bool) (s : Store)
    (d : Date) (h : HolidayRec) (hw : weekday d < 5) (hcc : cc d = false)
    (hl : lookupKey (dateStr d) s.custom_holidays = some h) :
    is_workday cc s d = h.is_workday := by
  unfold is_workday
  rw [if_neg (by omega), hcc, if_neg (by simp), hl]

/-- Witness for the amended C2: Monday 2025-01-06 with a custom-holiday
row whose flag is clear is classified a non-workday. -/
theorem is_workday_custom_override_witness :
    weekday ⟨2025, 1, 6⟩ < 5 ∧
    is_workday ccNone wkdHolidayStore ⟨2025, 1, 6⟩ = false :=
  ⟨by decide,
   is_workday_custom_override ccNone wkdHolidayStore ⟨2025, 1, 6⟩
     ⟨some ("bridge day"), false⟩ (by decide) rfl rfl⟩

/-! ### C4: the two status values -/

/-- C4 counterexample: a status update carrying an arbitrary string is
persisted verbatim, so the two-value property fails after the
operation — neither the update nor the import path validates status. -/
theorem status_two_values_counterexample :
    ¬ StatusOk (update_day_status ("2025-01-06") "BANANA" none emptyStore) := by
  intro h
  have hm := h ("2025-01-06", ⟨"BANANA", some 1⟩) (List.mem_cons_self _ _)
  exact (by decide : ¬ ("BANANA" = "WIO" ∨ "BANANA" = "WFH")) hm

/-- C4 (amended): the status-update and import operations persist the
request's status strings verbatim and nothing validates them, so the
two-value property is an invariant only relative to the requests: it
holds after every operation whose own status values are 'WIO' or
'WFH', starting from a store satisfying it. -/
theorem status_two_values_conditional (req : Request) (s : Store)
    (hs : StatusOk s) (hr : RequestStatusOk req) :
    StatusOk (handle true req s).2 := by
  cases req with
  | indexPage => exact hs
  | monthData y m => exact hs
  | dayStatusPost d st wh =>
    show StatusOk (update_day_status d st wh s)
    intro p hp
    rcases mem_insertRow hp with he | hmem
    · rw [he]
      exact hr
    · exact hs p hmem
  | dayStatusDelete d =>
    show StatusOk (delete_day_status d s)
    intro p hp
    exact hs p (List.mem_of_mem_filter hp)
  | settingsGet => exact hs
  | settingsPost kvs => exact hs
  | holidaysGet y => exact hs
  | holidaysPost d desc wd => exact hs
  | holidaysDelete d => exact hs
  | exportGet now => exact hs
  | importPost b =>
    show StatusOk (match import_data b s with
      | some t => (Response.completed, t)
      | none => (Response.clientError, s)).2
    cases him : import_data b s with
    | none => exact hs
    | some t =>
      show StatusOk t
      unfold import_data at him
      cases hv : b.version with
      | none =>
        rw [hv] at him
        cases him
      | some v =>
        rw [hv] at him
        injection him with him
        subst him
        intro p hp
        rcases mem_foldl_insertRow _ _ _ _ p hp with hmem | ⟨r, hr', he⟩
        · exact hs p hmem
        · rw [he]
          exact hr r hr'

/-- Witness for the amended C4: posting a 'WFH' day onto a store that
only holds the two values keeps the property. -/
theorem status_two_values_conditional_witness :
    StatusOk sampleStore ∧
    StatusOk (handle true
      (Request.dayStatusPost ("2025-01-08") "WFH" none) sampleStore).2 := by
  have hs : StatusOk sampleStore := by
    intro p hp
    fin_cases hp <;> simp [sampleStore]
  exact ⟨hs, status_two_values_conditional _ sampleStore hs (Or.inr rfl)⟩

/-! ### C5: one row per date -/

theorem storeKeysOk_import (b : ExportBlob) (s t : Store)
    (h : StoreKeysOk s) (him : import_data b s = some t) :
    StoreKeysOk t := by
  unfold import_data at him
  cases hv : b.version with
  | none =>
    rw [hv] at him
    cases him
  | some v =>
    rw [hv] at him
    injection him with him
    subst him
    exact ⟨keysNodup_foldl_insertRow _ _ _ _ h.1,
      keysNodup_foldl_insertRow _ _ _ _ h.2⟩

/-- C5: after every operation the store keeps at most one daily-status
row and at most one custom-holiday row per calendar date: a write to an
existing date replaces the row instead of adding a second one. -/
theorem at_most_one_row_per_date (req : Request) (s : Store)
    (h : StoreKeysOk s) : StoreKeysOk (handle true req s).2 := by
  obtain ⟨h1, h2⟩ := h
  cases req with
  | indexPage => exact ⟨h1, h2⟩
  | monthData y m => exact ⟨h1, h2⟩
  | dayStatusPost d st wh => exact ⟨keysNodup_insertRow _ _ h1, h2⟩
  | dayStatusDelete d => exact ⟨keysNodup_deleteRow _ h1, h2⟩
  | settingsGet => exact ⟨h1, h2⟩
  | settingsPost kvs => exact ⟨h1, h2⟩
  | holidaysGet y => exact ⟨h1, h2⟩
  | holidaysPost d desc wd => exact ⟨h1, keysNodup_insertRow _ _ h2⟩
  | holidaysDelete d => exact ⟨h1, keysNodup_deleteRow _ h2⟩
  | exportGet now => exact ⟨h1, h2⟩
  | importPost b =>
    show StoreKeysOk (match import_data b s with
      | some t => (Response.completed, t)
      | none => (Response.clientError, s)).2
    cases him : import_data b s with
    | none => exact ⟨h1, h2⟩
    | some t => exact storeKeysOk_import b s t ⟨h1, h2⟩ him

theorem sampleStore_keysOk : StoreKeysOk sampleStore := by
  constructor <;> · unfold keysNodup; decide

/-- Witness for C5: overwriting an existing date in the sample store
keeps the one-row-per-date property. -/
theorem at_most_one_row_per_date_witness :
    StoreKeysOk sampleStore ∧
    StoreKeysOk (handle true
      (Request.dayStatusPost ("2025-01-06") "WFH" none) sampleStore).2 :=
  ⟨sampleStore_keysOk,
   at_most_one_row_per_date _ sampleStore sampleStore_keysOk⟩

/-! ### C6: the work-hours default -/

/-- C6: work_hours defaults to 1.0 whenever absent: an update without
the field stores 1.0; a stored row with NULL work_hours is read back
as 1.0; a workday with no row at all is read as ('WFH', 1.0), the pair
the statistics loop sums. -/
theorem work_hours_default (d st : String) (s : Store) (y m : Nat)
    (ds : String) :
    lookupKey d (update_day_status d st none s).daily_status =
        some ⟨st, some 1⟩ ∧
    (∀ r : StatusRec, lookupKey ds (monthStatus y m s) = some r →
      r.work_hours = none → (dayLookup y m s ds).2 = 1) ∧
    (lookupKey ds (monthStatus y m s) = none →
      dayLookup y m s ds = ("WFH", 1)) := by
  refine ⟨?_, ?_, ?_⟩
  · exact lookupKey_insertRow_self d _ s.daily_status
  · intro r hr hwh
    unfold dayLookup
    rw [hr]
    dsimp only
    rw [hwh]
    rfl
  · intro hn
    unfold dayLookup
    rw [hn]

/-- Witness for C6 on a store holding one NULL-hours row. -/
theorem work_hours_default_witness :
    lookupKey ("2025-01-07")
        (update_day_status ("2025-01-07") "WFH" none
          nullHoursStore).daily_status = some ⟨"WFH", some 1⟩ ∧
    (dayLookup 2025 1 nullHoursStore ("2025-01-06")).2 = 1 ∧
    dayLookup 2025 1 nullHoursStore ("2025-01-09") = ("WFH", 1) := by
  have h6 := work_hours_default ("2025-01-07") "WFH" nullHoursStore 2025 1
    "2025-01-06"
  have h9 := work_hours_default ("2025-01-07") "WFH" nullHoursStore 2025 1
    "2025-01-09"
  exact ⟨h6.1, h6.2.1 ⟨"WIO", none⟩ rfl rfl, h9.2.2 rfl⟩

/-! ### C7: the settings key of the target -/

/-- C7 counterexample: with the target stored under the key the spec
names, 'target_percentage', and no 'wio_target' row, the endpoint falls
back to the default 40 instead of reading the stored 80 — the code's
key is 'wio_target'. -/
theorem wio_target_key_counterexample :
    getWioTarget pctKeyStore = some 40 ∧ parseFloat ("80") = some 80 := by
  constructor
  · rfl
  · rw [show parseFloat ("80") = some (1 * ((80 : ℕ) : ℚ)) from rfl]
    norm_num

/-- C7 (amended): the target percentage is stored under the settings key
'wio_target' (not 'target_percentage'): the month-data endpoint reads
that key, parsing its value and falling back to 40 when no row exists,
and the database initialiser seeds that key with '40'. -/
theorem wio_target_key (s : Store) :
    (lookupKey ("wio_target") s.settings = none →
      getWioTarget s = some 40 ∧
      lookupKey ("wio_target") (init_database s).settings = some ("40")) ∧
    (∀ v : String, ∀ q : ℚ, lookupKey ("wio_target") s.settings = some v →
      parseFloat v = some q → getWioTarget s = some q) := by
  constructor
  · intro h
    refine ⟨?_, ?_⟩
    · unfold getWioTarget
      rw [h]
    · unfold init_database
      rw [h]
      unfold lookupKey
      rw [List.find?_append]
      have hfn : s.settings.find? (fun p => p.1 == "wio_target") = none := by
        unfold lookupKey at h
        exact Option.map_eq_none'.1 h
      rw [hfn]
      rfl
  · intro v q hv hq
    unfold getWioTarget
    rw [hv]
    exact hq

/-- Witness for the amended C7: the empty store falls back to 40 and is
seeded with '40'; a stored '55' is read back as 55. -/
theorem wio_target_key_witness :
    getWioTarget emptyStore = some 40 ∧
    lookupKey ("wio_target") (init_database emptyStore).settings =
      some ("40") ∧
    getWioTarget targetStore = some 55 := by
  have h1 := (wio_target_key emptyStore).1 rfl
  have h55 : parseFloat ("55") = some 55 := by
    rw [show parseFloat ("55") = some (1 * ((55 : ℕ) : ℚ)) from rfl]
    norm_num
  exact ⟨h1.1, h1.2, (wio_target_key targetStore).2 ("55") 55 rfl h55⟩

/-! ### C8: authentication guards every data route -/

/-- C8: with no authenticated session, every data route redirects to the
login route and leaves the store unchanged: no state-changing operation
runs without login. -/
theorem login_required_redirect (req : Request) (s : Store) :
    handle false req s = (Response.redirect ("login"), s) := by
  cases req <;> rfl

/-! ### C9: export/import round-trip -/

theorem lookupKey_foldl_insertRow_self {α : Type} (L : List (String × α))
    (hn : keysNodup L) (k : String) :
    lookupKey k (L.foldl (fun l p => insertRow p.1 p.2 l) []) =
      lookupKey k L := by
  cases hk : lookupKey k L with
  | none =>
    rw [lookupKey_foldl_insertRow_of_not_mem L k
      ((lookupKey_eq_none_iff k L).1 hk) []]
    rfl
  | some v =>
    exact lookupKey_foldl_insertRow_of_some L k v hn hk []

/-- C9: importing the JSON produced by export into an empty store
succeeds — export always carries the version tag import checks — and
restores exactly the daily-status rows, the custom-holiday rows and the
settings of the original store. -/
theorem export_import_roundtrip (s : Store) (now : String)
    (h1 : keysNodup s.daily_status) (h2 : keysNodup s.custom_holidays)
    (h3 : keysNodup s.settings) :
    ∃ t : Store, import_data (export_data s now) emptyStore = some t ∧
      (∀ k, lookupKey k t.daily_status = lookupKey k s.daily_status) ∧
      (∀ k, lookupKey k t.custom_holidays =
        lookupKey k s.custom_holidays) ∧
      (∀ k, lookupKey k t.settings = lookupKey k s.settings) := by
  refine ⟨_, rfl, ?_, ?_, ?_⟩
  · intro k
    have hperm := List.perm_insertionSort
      (fun p q : String × StatusRec => p.1 ≤ q.1) s.daily_status
    have hns : keysNodup (List.insertionSort
        (fun p q : String × StatusRec => p.1 ≤ q.1) s.daily_status) :=
      ((hperm.map Prod.fst).nodup_iff).2 h1
    dsimp only [export_data, emptyStore]
    rw [List.foldl_map]
    show lookupKey k ((List.insertionSort
        (fun p q : String × StatusRec => p.1 ≤ q.1) s.daily_status).foldl
      (fun l p => insertRow p.1 p.2 l) []) = lookupKey k s.daily_status
    rw [lookupKey_foldl_insertRow_self _ hns k]
    exact lookupKey_of_perm hperm hns k
  · intro k
    have hperm := List.perm_insertionSort
      (fun p q : String × HolidayRec => p.1 ≤ q.1) s.custom_holidays
    have hns : keysNodup (List.insertionSort
        (fun p q : String × HolidayRec => p.1 ≤ q.1) s.custom_holidays) :=
      ((hperm.map Prod.fst).nodup_iff).2 h2
    dsimp only [export_data, emptyStore]
    rw [List.foldl_map]
    show lookupKey k ((List.insertionSort
        (fun p q : String × HolidayRec => p.1 ≤ q.1)
          s.custom_holidays).foldl
      (fun l p => insertRow p.1 p.2 l) []) = lookupKey k s.custom_holidays
    rw [lookupKey_foldl_insertRow_self _ hns k]
    exact lookupKey_of_perm hperm hns k
  · intro k
    dsimp only [export_data, emptyStore]
    exact lookupKey_foldl_insertRow_self s.settings h3 k

/-- Witness for C9 on the sample store. -/
theorem export_import_roundtrip_witness :
    keysNodup sampleStore.daily_status ∧
    ∃ t : Store,
      import_data (export_data sampleStore ("2025-02-01T00:00:00"))
          emptyStore = some t ∧
      (∀ k, lookupKey k t.daily_status =
        lookupKey k sampleStore.daily_status) ∧
      (∀ k, lookupKey k t.custom_holidays =
        lookupKey k sampleStore.custom_holidays) ∧
      (∀ k, lookupKey k t.settings = lookupKey k sampleStore.settings) :=
  ⟨by unfold keysNodup; decide,
   export_import_roundtrip sampleStore ("2025-02-01T00:00:00")
     (by unfold keysNodup; decide) (by unfold keysNodup; decide)
     (by unfold keysNodup; decide)⟩

end Wio
